import Mathlib

/-!
Verification development for the Go HTTP gateway in `backend-go/main.go`
(per-session request coordinator in front of a Python SDK backend).

The Go source is shallowly embedded: pure helpers become Lean functions on
`String` / `List Char`; the filesystem becomes an association list from
absolute path to file node; the per-session message queue and its worker
become a small-step transition system in which every mutex-protected method
of `messageQueue` is one atomic step.  All definitions are translated from
`main.go`; the line numbers in the doc comments refer to that file.
-/

/-- Decidable equality on Go-style `(value, error)` results, used to evaluate
the embedded functions on concrete inputs. -/
instance {ε α : Type} [DecidableEq ε] [DecidableEq α] : DecidableEq (Except ε α) := fun a b =>
  match a, b with
  | Except.ok x, Except.ok y =>
    if h : x = y then isTrue (by rw [h]) else isFalse (fun hc => h (Except.ok.inj hc))
  | Except.error x, Except.error y =>
    if h : x = y then isTrue (by rw [h]) else isFalse (fun hc => h (Except.error.inj hc))
  | Except.ok _, Except.error _ => isFalse (fun hc => Except.noConfusion hc)
  | Except.error _, Except.ok _ => isFalse (fun hc => Except.noConfusion hc)

/-! ## Generic string helpers (substring / prefix tests used by `strings.*`)

The Go code uses `strings.HasPrefix`, `strings.Contains`, `strings.ContainsAny`,
`strings.TrimSpace` and `strings.TrimPrefix`.  These are modelled on the
character list underlying a `String` so that every proof can evaluate them
with the kernel. -/

/-- List prefix test, Boolean version (model of the prefix test underlying
`strings.HasPrefix`). -/
def listIsPrefixOf : List Char → List Char → Bool
  | [], _ => true
  | _ :: _, [] => false
  | a :: as, b :: bs => a = b && listIsPrefixOf as bs

/-- List infix test (model of the substring search underlying `strings.Contains`). -/
def listIsInfixOf (pat : List Char) : List Char → Bool
  | [] => listIsPrefixOf pat []
  | c :: rest => listIsPrefixOf pat (c :: rest) || listIsInfixOf pat rest

/-- Model of Go `strings.HasPrefix s pre`. -/
def strHasPrefix (s pre : String) : Bool :=
  listIsPrefixOf pre.data s.data

/-- Model of Go `strings.Contains s pat` (substring containment). -/
def strContains (s pat : String) : Bool :=
  listIsInfixOf pat.data s.data

/-- Model of Go `strings.ContainsAny s chars`: does any character of `chars`
occur in `s`? -/
def strContainsAny (s chars : String) : Bool :=
  s.data.any (fun c => chars.data.contains c)

/-- Go `unicode.IsSpace` restricted to the Latin-1 white space characters
(space, tab, newline, vertical tab, form feed, carriage return, NEL, NBSP);
the wider Unicode space classes never appear in the strings this development
evaluates. -/
def isSpaceGo (c : Char) : Bool :=
  c = ' ' || c = '\t' || c = '\n' || c = '\x0b' || c = '\x0c' || c = '\r' ||
    c = '\x85' || c = '\xa0'

/-- Model of Go `strings.TrimSpace`. -/
def strTrimSpace (s : String) : String :=
  String.mk (((s.data.dropWhile isSpaceGo).reverse.dropWhile isSpaceGo).reverse)

/-- Split a character list on a separator character; model of the element
decomposition used by `strings.Split` and by `filepath.Clean`. -/
def splitOnChar (sep : Char) : List Char → List (List Char)
  | [] => [[]]
  | c :: rest =>
    if c = sep then [] :: splitOnChar sep rest
    else
      match splitOnChar sep rest with
      | g :: gs => (c :: g) :: gs
      | [] => [[c]]

/-! ## `path/filepath` (Unix rules): `Clean`, `Abs`, `Join`, `Ext`

`filepath.Clean` is the Plan 9 lexical cleaning algorithm: collapse slashes,
drop `.` elements, resolve `..` against the preceding element, never going
above the root of a rooted path.  `filepath.Abs` cleans an absolute path and
joins a relative one onto the working directory, which is passed here as an
explicit `cwd` argument (assumed absolute).  `filepath.Join` concatenates with
slashes and cleans; `filepath.Ext` is the suffix from the final dot of the
final element. -/

/-- Stack step of `filepath.Clean`: `acc` is the reversed stack of kept
elements, `comps` the remaining raw elements. -/
def cleanStack (rooted : Bool) : List (List Char) → List (List Char) → List (List Char)
  | acc, [] => acc.reverse
  | acc, comp :: rest =>
    if comp = [] || comp = ['.'] then cleanStack rooted acc rest
    else if comp = ['.', '.'] then
      match acc with
      | top :: acc' =>
        if top = ['.', '.'] then cleanStack rooted (comp :: top :: acc') rest
        else cleanStack rooted acc' rest
      | [] => if rooted then cleanStack rooted [] rest else cleanStack rooted [comp] rest
    else cleanStack rooted (comp :: acc) rest

/-- `filepath.Clean` on the underlying character list. -/
def cleanChars (cs : List Char) : List Char :=
  if cs = [] then ['.']
  else
    let rooted := cs.head? = some '/'
    let stack := cleanStack rooted [] (splitOnChar '/' cs)
    let body := List.intercalate ['/'] stack
    if rooted then '/' :: body
    else if body = [] then ['.'] else body

/-- Model of Go `filepath.Clean` (Unix separator). -/
def filepathClean (p : String) : String :=
  String.mk (cleanChars p.data)

/-- Model of Go `filepath.Abs`, with the process working directory passed
explicitly (assumed absolute). -/
def filepathAbs (cwd p : String) : String :=
  if strHasPrefix p "/" then filepathClean p
  else filepathClean (cwd ++ "/" ++ p)

/-- Model of Go `filepath.Join(a, b)` for non-empty `a`, `b`. -/
def filepathJoin (a b : String) : String :=
  if a = "" then filepathClean b
  else if b = "" then filepathClean a
  else filepathClean (a ++ "/" ++ b)

/-- Model of Go `filepath.Join(a, b, c)` for non-empty elements. -/
def filepathJoin3 (a b c : String) : String :=
  filepathClean (a ++ "/" ++ b ++ "/" ++ c)

/-- Model of Go `filepath.Ext`: the suffix of the final path element starting
at its final dot, or `""` when that element has no dot. -/
def filepathExt (p : String) : String :=
  let base := (splitOnChar '/' p.data).getLastD []
  let afterDot := (base.reverse.takeWhile (fun c => c ≠ '.'))
  if afterDot.length = base.length then ""
  else String.mk ('.' :: afterDot.reverse)

/-! ## Validators (`main.go` lines 331-423, 915-919) -/

/-- Model of `validatePath(path, basePath)` (main.go 331-357).  The Go code
cleans the path, rejects it when the CLEANED form contains the substring
`".."`, resolves both the cleaned path and the base to absolute form, and
rejects when the absolute base is not a string prefix of the absolute path.
`cwd` is the process working directory consumed by `filepath.Abs`. -/
def validatePath (cwd path basePath : String) : Except String Unit :=
  let cleanPath := filepathClean path
  if strContains cleanPath ".." then Except.error "invalid path: contains \x27..\x27"
  else
    let absPath := filepathAbs cwd cleanPath
    let absBase := filepathAbs cwd basePath
    if !strHasPrefix absPath absBase then Except.error "path outside base directory"
    else Except.ok ()

/-- Model of `sanitizeProjectName` (main.go 360-377).  The character-set
argument of `strings.ContainsAny` is the Go literal `"/../\\:*?\"<>|"`, whose
character SET is / . \ : * ? " < > | — note that it contains the dot.
Length is the byte length (`len` in Go). -/
def sanitizeProjectName (name : String) : Except String String :=
  if strContainsAny name "/../\x5c:*?\"<>|" then
    Except.error "invalid characters in project name"
  else if name.utf8ByteSize > 255 then Except.error "project name too long"
  else if strTrimSpace name = "" then Except.error "project name cannot be empty"
  else Except.ok name

/-- The `dangerous` substring list of `sanitizeMessage` (main.go 392). -/
def dangerousSubstrings : List String :=
  [";", "&", "|", "\x60", "$", "(", ")", "<", ">", "\n\n\n", "\r"]

/-- Model of `sanitizeMessage` (main.go 380-400): length check (bytes), then
whitespace-only check, then the substring checks of `dangerousSubstrings`
in order; on success the message is returned unchanged. -/
def sanitizeMessage (msg : String) : Except String String :=
  if msg.utf8ByteSize > 10000 then Except.error "message too long (max 10000 chars)"
  else if strTrimSpace msg = "" then Except.error "message cannot be empty"
  else
    match dangerousSubstrings.find? (fun pat => strContains msg pat) with
    | some pat => Except.error ("message contains invalid characters: " ++ pat)
    | none => Except.ok msg

/-- Hexadecimal digit per the character classes of the UUID regex
(main.go 917): `0-9`, `a-f`, `A-F`. -/
def isHexDigit (c : Char) : Bool :=
  (decide (48 ≤ c.toNat) && decide (c.toNat ≤ 57)) ||
    (decide (97 ≤ c.toNat) && decide (c.toNat ≤ 102)) ||
    (decide (65 ≤ c.toNat) && decide (c.toNat ≤ 70))

/-- Model of the anchored regex
`^[0-9a-fA-F]{8}-[0-9a-fA-F]{4}-[0-9a-fA-F]{4}-[0-9a-fA-F]{4}-[0-9a-fA-F]{12}$`
used by `isValidUUID` (main.go 915-919): a string matches exactly when it
splits on `-` into five hexadecimal groups of lengths 8, 4, 4, 4, 12. -/
def isValidUUID (s : String) : Bool :=
  match splitOnChar '-' s.data with
  | [a, b, c, d, e] =>
    a.length = 8 && b.length = 4 && c.length = 4 && d.length = 4 && e.length = 12 &&
      (a ++ b ++ c ++ d ++ e).all isHexDigit
  | _ => false

/-! ## Filesystem model

The handlers only perform whole-file operations (`os.Stat`, `os.Open` +
read-all, `os.ReadFile`, `os.WriteFile`, `os.Remove`), so the filesystem is an
association list from absolute path to a node carrying the directory flag and
the byte content.  `os.Stat` fails exactly on absent paths (other stat errors
are out of scope); `os.MkdirAll` is the identity because directories are not
tracked as nodes. -/

/-- One filesystem node: a directory flag and, for plain files, the content
bytes.  `Size()` is the content length. -/
structure FNode where
  isDir : Bool
  content : List Nat
deriving DecidableEq

/-- The filesystem: association list from absolute path to node (unique keys). -/
abbrev Fs := List (String × FNode)

/-- Model of `os.Stat`: first node registered at the path. -/
def statFs : Fs → String → Option FNode
  | [], _ => none
  | (q, n) :: rest, p => if q = p then some n else statFs rest p

/-- Model of `os.Remove` (on files): drop the entry at the path. -/
def removeFs : Fs → String → Fs
  | [], _ => []
  | (q, n) :: rest, p => if q = p then rest else (q, n) :: removeFs rest p

/-- Model of `os.WriteFile`: replace the node at the path, creating it at the
end when absent. -/
def writeFs : Fs → String → List Nat → Fs
  | [], p, c => [(p, { isDir := false, content := c })]
  | (q, n) :: rest, p, c =>
    if q = p then (p, { isDir := false, content := c }) :: rest
    else (q, n) :: writeFs rest p c

/-- Model of `os.ReadFile`: the content bytes of the file at the path. -/
def readFileFs (fs : Fs) (p : String) : Option (List Nat) :=
  (statFs fs p).map FNode.content

/-- Model of `validateFileOperation` (main.go 403-423): stat; absent file is
an error unless the operation is `"create"`; directories are rejected; only
the extensions `.jsonl` and `""` are allowed; files above 100 MiB are
rejected. -/
def validateFileOperation (fs : Fs) (filePath operation : String) : Except String Unit :=
  let info := statFs fs filePath
  if info.isNone && operation ≠ "create" then Except.error "file not found"
  else if (match info with | some n => n.isDir | none => false) then
    Except.error "path is directory, not file"
  else if filepathExt filePath ≠ ".jsonl" && filepathExt filePath ≠ "" then
    Except.error "invalid extension: only .jsonl allowed"
  else if (match info with | some n => decide (n.content.length > 100 * 1024 * 1024) | none => false) then
    Except.error "file too large: max 100MB"
  else Except.ok ()

/-! ## Session directory cache (`main.go` lines 36-54, 270-301) -/

/-- `SessionInfo` (main.go 37-40). -/
structure SessionInfo where
  id : String
  path : String
deriving DecidableEq

/-- `cacheEntry` (main.go 43-46); the timestamp is an abstract instant. -/
structure cacheEntry where
  sessions : List SessionInfo
  timestamp : Nat
deriving DecidableEq

/-- The `sessionCache.data` map, as an association list with unique keys. -/
abbrev CacheMap := List (String × cacheEntry)

/-- Model of `invalidateSessionCache` (main.go 295-301): `delete` of the
project's key from the map. -/
def invalidateSessionCache (projectName : String) (m : CacheMap) : CacheMap :=
  m.filter (fun e => e.1 ≠ projectName)

/-! ## Per-session message queue (`main.go` lines 56-165, 1106-1126)

`messageQueue` holds a message slice and a `processing` flag behind one mutex.
Each method (`enqueue`, `dequeue`, `isProcessing`, `setProcessing`) locks the
mutex for its own body only, so in the transition system below each method
call is ONE atomic step and steps of different goroutines may interleave
between calls.  Messages are abstracted to the index of the enqueueing
handler. -/

/-- The `messageQueue` fields guarded by its mutex (main.go 56-61). -/
structure QueueState where
  messages : List Nat
  processing : Bool
deriving DecidableEq

/-- `messageQueue.enqueue` (main.go 103-108): append. -/
def queueEnqueue (q : QueueState) (m : Nat) : QueueState :=
  { q with messages := q.messages ++ [m] }

/-- `messageQueue.dequeue` (main.go 111-123): pop the head; on an empty queue
it returns `ok = false` and leaves the state — including `processing` —
unchanged. -/
def queueDequeue (q : QueueState) : Option Nat × QueueState :=
  match q.messages with
  | [] => (none, q)
  | m :: rest => (some m, { q with messages := rest })

/-- `messageQueue.isProcessing` (main.go 126-130). -/
def queueIsProcessing (q : QueueState) : Bool :=
  q.processing

/-- `messageQueue.setProcessing` (main.go 133-137). -/
def queueSetProcessing (q : QueueState) (b : Bool) : QueueState :=
  { q with processing := b }

/-- Position of one chat-handler goroutine inside the queue section of the
`POST /api/chat` handler (main.go 1113-1126):
`ready` — about to call `queue.enqueue`;
`enqueued` — about to call `queue.isProcessing`;
`checked saw` — `isProcessing` returned `saw`; when `saw = false` the next
step calls `setProcessing(true)` and spawns `processQueue`;
`finished becameWorker` — past the if. -/
inductive HandlerPhase
  | ready
  | enqueued
  | checked (saw : Bool)
  | finished (becameWorker : Bool)
deriving DecidableEq

/-- Position of one `processQueue` goroutine (main.go 140-165):
`looping` — top of the loop, about to call `dequeue`;
`executing m` — dequeued message `m`, inside `executeClaudeCLI`;
`draining` — `dequeue` returned `ok = false`, about to call
`setProcessing(false)`;
`stopped` — returned. -/
inductive WorkerPhase
  | looping
  | executing (m : Nat)
  | draining
  | stopped
deriving DecidableEq

/-- Global state of one session's queue, the chat handlers racing on it and
the `processQueue` goroutines spawned for it. -/
structure QueueSys where
  queue : QueueState
  handlers : List HandlerPhase
  workers : List WorkerPhase
deriving DecidableEq

/-- Scheduling label: which goroutine performs its next atomic step. -/
inductive GoLabel
  | handler (i : Nat)
  | worker (i : Nat)

/-- One atomic step of chat handler `i` (main.go 1113-1126).  The
`checked false` step merges `setProcessing(true)` with the `go processQueue`
spawn that immediately follows it in program order; merging two actions of the
same goroutine only makes the model MORE atomic than the Go code, so any race
exhibited here exists in the source.  Note the race surface: `isProcessing`
and `setProcessing` are separate steps, exactly as they are separate
mutex-protected calls in the source. -/
def handlerStep (s : QueueSys) (i : Nat) : QueueSys :=
  match s.handlers.get? i with
  | some HandlerPhase.ready =>
    { s with queue := queueEnqueue s.queue i, handlers := s.handlers.set i HandlerPhase.enqueued }
  | some HandlerPhase.enqueued =>
    { s with handlers := s.handlers.set i (HandlerPhase.checked (queueIsProcessing s.queue)) }
  | some (HandlerPhase.checked false) =>
    { s with queue := queueSetProcessing s.queue true,
             handlers := s.handlers.set i (HandlerPhase.finished true),
             workers := s.workers ++ [WorkerPhase.looping] }
  | some (HandlerPhase.checked true) =>
    { s with handlers := s.handlers.set i (HandlerPhase.finished false) }
  | _ => s

/-- One atomic step of `processQueue` goroutine `i` (main.go 140-165): the
loop calls `dequeue`; a dequeued message is processed by `executeClaudeCLI`
(one opaque step, after which the loop repeats); on `ok = false` the NEXT,
separate step calls `setProcessing(false)` and returns. -/
def workerStep (s : QueueSys) (i : Nat) : QueueSys :=
  match s.workers.get? i with
  | some WorkerPhase.looping =>
    match queueDequeue s.queue with
    | (some m, q') => { s with queue := q', workers := s.workers.set i (WorkerPhase.executing m) }
    | (none, q') => { s with queue := q', workers := s.workers.set i WorkerPhase.draining }
  | some (WorkerPhase.executing _) =>
    { s with workers := s.workers.set i WorkerPhase.looping }
  | some WorkerPhase.draining =>
    { s with queue := queueSetProcessing s.queue false, workers := s.workers.set i WorkerPhase.stopped }
  | _ => s

/-- Dispatch one step to the scheduled goroutine. -/
def sysStep (s : QueueSys) : GoLabel → QueueSys
  | GoLabel.handler i => handlerStep s i
  | GoLabel.worker i => workerStep s i

/-- Execute a schedule (list of labels) from a state. -/
def sysRun (s : QueueSys) : List GoLabel → QueueSys
  | [] => s
  | l :: ls => sysRun (sysStep s l) ls

/-- Initial state for one session id: fresh queue (as built by
`getOrCreateQueue`, main.go 86-100: no messages, `processing = false`),
`n` concurrent chat handlers for that session, no worker yet. -/
def initQueueSys (n : Nat) : QueueSys :=
  { queue := { messages := [], processing := false }
    handlers := List.replicate n HandlerPhase.ready
    workers := [] }

/-! ## Upstream proxy (`executeClaudeCLI`, main.go 168-265) -/

/-- `sseEvent` (main.go 71-75). -/
structure sseEvent where
  eventType : String
  content : String
  sessionID : Option String
deriving DecidableEq

/-- One line read from the upstream SSE body, as the proxy's reader
distinguishes them (main.go 221-261).  JSON decoding of a `data: ` payload is
abstracted into the constructor: `frame typ content text errField` is a
`data: ` line whose JSON object decodes with the given `"type"` string and
with `content`/`text`/`error` fields when they are present AND of string type
(the Go code reads them with checked type assertions). -/
inductive UpLine
  | other
  | badJSON
  | frame (typ : String) (content : Option String) (text : Option String)
      (errField : Option String)
deriving DecidableEq

/-- Per-line event normalization of the proxy's read loop (main.go 230-261):
lines that are blank after trimming or do not start with `data: ` are skipped;
a `data: ` line whose JSON fails to decode is logged and SKIPPED (`continue`);
`text`/`content` frames emit a text event from the `content` field, else the
`text` field, else nothing; `done`/`session_created` frames emit a done event
carrying the session id; `error` frames emit an error event from the `error`
field when it is a string; all other types are ignored. -/
def handleUpLine (sessionID : String) : UpLine → List sseEvent
  | UpLine.other => []
  | UpLine.badJSON => []
  | UpLine.frame typ content text errField =>
    if typ = "text" || typ = "content" then
      match content with
      | some c => [{ eventType := "text", content := c, sessionID := none }]
      | none =>
        match text with
        | some t => [{ eventType := "text", content := t, sessionID := none }]
        | none => []
    else if typ = "done" || typ = "session_created" then
      [{ eventType := "done", content := "", sessionID := some sessionID }]
    else if typ = "error" then
      match errField with
      | some e => [{ eventType := "error", content := e, sessionID := none }]
      | none => []
    else []

/-- Outcome of the upstream HTTP call made by `executeClaudeCLI`:
`marshalErr` — `json.Marshal` of the payload failed (main.go 188-192);
`requestErr` — `http.NewRequestWithContext` failed (main.go 196-200);
`transportErr` — `client.Do` failed (main.go 206-210);
`httpResponse status body lines` — a response arrived with the given status;
`body` is what `io.ReadAll` returns for a non-200 response, and `lines` are
the SSE lines successfully read from a 200 response before EOF OR before a
mid-stream read error — the read loop treats both identically: it `break`s
without emitting any event (main.go 222-228). -/
inductive UpstreamOutcome
  | marshalErr
  | requestErr
  | transportErr (msg : String)
  | httpResponse (status : Nat) (body : String) (lines : List UpLine)
deriving DecidableEq

/-- Model of `executeClaudeCLI` (main.go 168-265): the list of events sent on
the turn's channel, in order, before the deferred `close(eventChan)` runs.
Every failure before the stream starts emits exactly one error event; a 200
response streams the per-line normalization of its body lines. -/
def executeClaudeCLI (sessionID : String) : UpstreamOutcome → List sseEvent
  | UpstreamOutcome.marshalErr =>
    [{ eventType := "error", content := "Erro ao criar payload", sessionID := none }]
  | UpstreamOutcome.requestErr =>
    [{ eventType := "error", content := "Erro ao criar request", sessionID := none }]
  | UpstreamOutcome.transportErr msg =>
    [{ eventType := "error", content := "Erro ao conectar com Python: " ++ msg, sessionID := none }]
  | UpstreamOutcome.httpResponse status body lines =>
    if status ≠ 200 then
      [{ eventType := "error", content := "Erro HTTP " ++ toString status ++ ": " ++ body,
         sessionID := none }]
    else (lines.map (handleUpLine sessionID)).flatten

/-! ## Chat handler enqueue site (`main.go` lines 1002-1126) -/

/-- `ChatRequest` (main.go 24-28). -/
structure ChatRequest where
  message : String
  sessionID : Option String
  projectName : Option String
deriving DecidableEq

/-- A Go `context.Context` as the chat path uses it: either
`context.Background()` (never cancelled) or `r.Context()` (cancelled when the
client's HTTP request ends). -/
inductive GoContext
  | background
  | requestContext
deriving DecidableEq

/-- Whether the context is cancelled when the client disconnects:
`context.Background()` is documented to be never cancelled; a request context
is cancelled when the client connection closes. -/
def GoContext.cancelledOnClientDisconnect : GoContext → Bool
  | GoContext.background => false
  | GoContext.requestContext => true

/-- `queuedMessage` (main.go 64-68).  The event channel is a runtime object
and is omitted; the claims about the enqueued turn concern its context. -/
structure queuedMessage where
  message : ChatRequest
  ctx : GoContext
deriving DecidableEq

/-- The context the chat handler creates for the turn: main.go 1030 is
`ctx := context.Background()` — not `r.Context()`. -/
def chatHandlerCtx : GoContext :=
  GoContext.background

/-- The `queuedMessage` the chat handler passes to `queue.enqueue`
(main.go 1113-1117): the decoded request together with `chatHandlerCtx`. -/
def mkChatQueuedMessage (req : ChatRequest) : queuedMessage :=
  { message := req, ctx := chatHandlerCtx }

/-! ## HTTP handlers as state functions

A handler consumes the filesystem and the session cache and returns an HTTP
status plus the new filesystem and cache.  `corsMiddleware` adds headers and
passes a non-OPTIONS request through unchanged, so it is the identity here. -/

/-- A handler: filesystem and cache in, status code and new filesystem and
cache out. -/
abbrev Handler := Fs × CacheMap → Nat × (Fs × CacheMap)

/-- Model of `authMiddleware` (main.go 463-483): when the `API_KEY`
environment variable (`apiKey`; `""` means unset) is set and the request's
`X-API-Key` header (`providedKey`) differs from it, respond 401 without
invoking the wrapped handler; otherwise pass through. -/
def authMiddleware (apiKey providedKey : String) (next : Handler) : Handler :=
  fun st =>
    if apiKey = "" then next st
    else if providedKey ≠ apiKey then (401, st)
    else next st

/-- The routes registered in `main` (main.go 523-1157). -/
inductive Route
  | health
  | liveSession
  | listProjects
  | deleteProject
  | listSessions
  | readSession
  | deleteSession
  | clearHistory
  | forkSession
  | chat
deriving DecidableEq

/-- Which routes `main` wraps in `authMiddleware`, read off the
`mux.HandleFunc` registrations: DELETE project (647), POST clear-history
(883), POST fork-session (922) and POST chat (1002) are wrapped; DELETE
session (833) is registered with `corsMiddleware` ONLY, and the read-only
routes carry no auth either. -/
def routeAuthWrapped : Route → Bool
  | Route.deleteProject => true
  | Route.clearHistory => true
  | Route.forkSession => true
  | Route.chat => true
  | _ => false

/-- A route's registered pipeline around its inner handler: `authMiddleware`
exactly when `main` wraps that route in it (`corsMiddleware` is the identity
for non-OPTIONS requests). -/
def routeEndpoint (r : Route) (apiKey providedKey : String) (inner : Handler) : Handler :=
  if routeAuthWrapped r then authMiddleware apiKey providedKey inner else inner

/-- Model of the `DELETE /api/projects/{projectName}/sessions/{sessionID}`
handler body (main.go 833-880): build
`filepath.Join(projectsDir, projectName, sessionID + ".jsonl")`; 400 when
`validatePath` fails; 400 when `validateFileOperation(..., "delete")` fails
(note: for an absent file this fires BEFORE the dedicated existence check);
404 when `os.Stat` reports the file absent; otherwise remove the file,
invalidate the project's cache entry and respond 200.  `projectsDir` stands
for `getClaudeProjectsDir()` and `cwd` for the working directory used by
`filepath.Abs`.  (`os.Remove` of an existing file is assumed to succeed, so
the 500 branch of the source is not represented.) -/
def deleteSessionHandler (projectsDir cwd projectName sessionID : String) : Handler :=
  fun st =>
    let fs := st.1
    let cache := st.2
    let sessionFile := filepathJoin3 projectsDir projectName (sessionID ++ ".jsonl")
    match validatePath cwd sessionFile projectsDir with
    | Except.error _ => (400, (fs, cache))
    | Except.ok _ =>
      match validateFileOperation fs sessionFile "delete" with
      | Except.error _ => (400, (fs, cache))
      | Except.ok _ =>
        if (statFs fs sessionFile).isNone then (404, (fs, cache))
        else (200, (removeFs fs sessionFile, invalidateSessionCache projectName cache))

/-- The fork request body (main.go 925-929). -/
structure ForkRequest where
  sourceSession : String
  forkSession : String
  projectName : String
deriving DecidableEq

/-- `sourcePath` as the fork handler builds it (main.go 949-950). -/
def forkSourcePath (projectsDir : String) (req : ForkRequest) : String :=
  filepathJoin (filepathJoin projectsDir req.projectName) (req.sourceSession ++ ".jsonl")

/-- `forkPath` as the fork handler builds it (main.go 949-951). -/
def forkTargetPath (projectsDir : String) (req : ForkRequest) : String :=
  filepathJoin (filepathJoin projectsDir req.projectName) (req.forkSession ++ ".jsonl")

/-- Model of the `POST /api/fork-session` handler body (main.go 922-999):
400 when either session id fails `isValidUUID` or the project name is empty;
404 when `validateFileOperation(sourcePath, "read")` fails; 409 when the fork
target already exists; otherwise read the source bytes, `MkdirAll` the project
directory (identity here: directories are not tracked), write them to the
fork path, invalidate the project's cache entry and respond 200.  (`ReadFile`
of a file that just passed validation is assumed to succeed, so the 500
branches of the source are not represented; the decoding of the JSON body is
handled by the caller.) -/
def forkSessionHandler (projectsDir : String) (req : ForkRequest) : Handler :=
  fun st =>
    let fs := st.1
    let cache := st.2
    if !isValidUUID req.sourceSession || !isValidUUID req.forkSession then (400, (fs, cache))
    else if req.projectName = "" then (400, (fs, cache))
    else
      let sourcePath := forkSourcePath projectsDir req
      let forkPath := forkTargetPath projectsDir req
      match validateFileOperation fs sourcePath "read" with
      | Except.error _ => (404, (fs, cache))
      | Except.ok _ =>
        if (statFs fs forkPath).isSome then (409, (fs, cache))
        else
          match statFs fs sourcePath with
          | none => (500, (fs, cache))
          | some node =>
            (200, (writeFs fs forkPath node.content, invalidateSessionCache req.projectName cache))

/-! ## Claim C1 — at-most-one worker per session -/

/-- Claim C1 is FALSE as stated: the chat handler checks `isProcessing` and
calls `setProcessing(true)` in two separate critical sections
(main.go 1120-1121), not atomically.  Under the explicit interleaving below,
two concurrent chat handlers for the same session both observe
`processing = false`, both become the designated worker, and the two spawned
`processQueue` goroutines end up executing `executeClaudeCLI` simultaneously
for the same session. -/
theorem chat_double_worker_interleaving :
    sysRun (initQueueSys 2)
        [GoLabel.handler 0, GoLabel.handler 0, GoLabel.handler 1, GoLabel.handler 1,
         GoLabel.handler 0, GoLabel.handler 1, GoLabel.worker 0, GoLabel.worker 1] =
      { queue := { messages := [], processing := true },
        handlers := [HandlerPhase.finished true, HandlerPhase.finished true],
        workers := [WorkerPhase.executing 0, WorkerPhase.executing 1] } := by
  decide

/-- Claim C1, amended: the check of the `processing` flag and its setting are
each individually atomic (each holds the queue mutex) but the pair is not;
when one chat handler's enqueue/check/set sequence completes before the
other's begins, exactly one of the two becomes the designated worker and
exactly one `processQueue` goroutine is spawned — but an adversarial
interleaving of the two sequences can make both handlers workers. -/
theorem chat_single_worker_when_serialized :
    (sysRun (initQueueSys 2)
        [GoLabel.handler 0, GoLabel.handler 0, GoLabel.handler 0,
         GoLabel.handler 1, GoLabel.handler 1, GoLabel.handler 1]).handlers =
      [HandlerPhase.finished true, HandlerPhase.finished false] ∧
    (sysRun (initQueueSys 2)
        [GoLabel.handler 0, GoLabel.handler 0, GoLabel.handler 0,
         GoLabel.handler 1, GoLabel.handler 1, GoLabel.handler 1]).workers =
      [WorkerPhase.looping] ∧
    (sysRun (initQueueSys 2)
        [GoLabel.handler 1, GoLabel.handler 1, GoLabel.handler 1,
         GoLabel.handler 0, GoLabel.handler 0, GoLabel.handler 0]).handlers =
      [HandlerPhase.finished false, HandlerPhase.finished true] ∧
    (sysRun (initQueueSys 2)
        [GoLabel.handler 1, GoLabel.handler 1, GoLabel.handler 1,
         GoLabel.handler 0, GoLabel.handler 0, GoLabel.handler 0]).workers =
      [WorkerPhase.looping] := by
  decide

/-! ## Claim C2 — every stream ends in `done` or `error` -/

/-- Claim C2 is FALSE as stated: a 200 upstream response whose body carries a
single `text` frame and then ends (EOF or mid-stream read error) publishes
exactly one `text` event — the channel closes with a last event that is
neither `done` nor `error`; and a 200 response with no frames publishes no
event at all, so the sequence is not even non-empty. -/
theorem proxy_stream_can_end_without_done_or_error :
    executeClaudeCLI "s"
        (UpstreamOutcome.httpResponse 200 "" [UpLine.frame "text" (some "hello") none none]) =
      [{ eventType := "text", content := "hello", sessionID := none }] ∧
    executeClaudeCLI "s" (UpstreamOutcome.httpResponse 200 "" []) = [] := by
  decide

/-- Claim C2, amended: failures BEFORE the stream starts — payload
construction, request construction, transport, non-200 status — each publish
exactly one `error` event before the channel closes; for a 200 response the
published events are exactly the in-order per-line normalization of the body
lines, so a decode failure is skipped silently and a body that ends (EOF or
read error) without a `done`/`session_created` or `error` frame closes the
channel with no trailing `done`/`error` event. -/
theorem executeClaudeCLI_event_shapes (sid msg body : String) (status : Nat)
    (lines : List UpLine) (hstatus : status ≠ 200) :
    executeClaudeCLI sid UpstreamOutcome.marshalErr =
      [{ eventType := "error", content := "Erro ao criar payload", sessionID := none }] ∧
    executeClaudeCLI sid UpstreamOutcome.requestErr =
      [{ eventType := "error", content := "Erro ao criar request", sessionID := none }] ∧
    executeClaudeCLI sid (UpstreamOutcome.transportErr msg) =
      [{ eventType := "error", content := "Erro ao conectar com Python: " ++ msg,
         sessionID := none }] ∧
    executeClaudeCLI sid (UpstreamOutcome.httpResponse status body lines) =
      [{ eventType := "error", content := "Erro HTTP " ++ toString status ++ ": " ++ body,
         sessionID := none }] ∧
    executeClaudeCLI sid (UpstreamOutcome.httpResponse 200 body lines) =
      (lines.map (handleUpLine sid)).flatten := by
  refine ⟨rfl, rfl, rfl, ?_, ?_⟩
  · simp [executeClaudeCLI, hstatus]
  · simp [executeClaudeCLI]

/-- Witness for `executeClaudeCLI_event_shapes` at a concrete failing status. -/
theorem executeClaudeCLI_event_shapes_witness :
    executeClaudeCLI "s" (UpstreamOutcome.httpResponse 500 "boom" []) =
      [{ eventType := "error", content := "Erro HTTP " ++ toString 500 ++ ": " ++ "boom",
         sessionID := none }] :=
  (executeClaudeCLI_event_shapes "s" "m" "boom" 500 [] (by decide)).2.2.2.1

/-! ## Claim C3 — dequeue on empty atomically clears `processing` -/

/-- Claim C3 is FALSE as stated: `dequeue` on an empty queue returns
`ok = false` but does NOT touch the `processing` flag — from a state with
`processing = true` the returned state still has `processing = true`; the
flag is cleared only later by `processQueue` in a separate critical
section. -/
theorem dequeue_empty_leaves_processing_set :
    (queueDequeue { messages := [], processing := true }).1 = none ∧
    (queueDequeue { messages := [], processing := true }).2.processing = true := by
  decide

/-- Claim C3, amended: `dequeue` on an empty queue returns `ok = false` and
leaves the whole state, the `processing` flag included, unchanged; the worker
clears the flag in a separate critical section, so an interleaving point DOES
exist between observing the queue empty and clearing the flag: in the
schedule below a turn enqueued at that point sees `processing = true`, spawns
no worker, and is left stranded in the queue after the only worker stops. -/
theorem dequeue_empty_identity_and_stranded_turn :
    (∀ b : Bool, queueDequeue { messages := [], processing := b } =
        (none, { messages := [], processing := b })) ∧
    sysRun (initQueueSys 2)
        [GoLabel.handler 0, GoLabel.handler 0, GoLabel.handler 0, GoLabel.worker 0,
         GoLabel.worker 0, GoLabel.worker 0, GoLabel.handler 1, GoLabel.handler 1,
         GoLabel.handler 1, GoLabel.worker 0] =
      { queue := { messages := [1], processing := false },
        handlers := [HandlerPhase.finished true, HandlerPhase.finished false],
        workers := [WorkerPhase.stopped] } :=
  ⟨fun b => by cases b <;> rfl, by decide⟩

/-! ## Claim C4 — enqueued turns carry a request-scoped context -/

/-- Claim C4 is FALSE as stated: the chat handler stores
`context.Background()` into the enqueued turn (main.go 1030), and
`context.Background()` is never cancelled — in particular not when the client
disconnects. -/
theorem enqueued_turn_ctx_is_background :
    (mkChatQueuedMessage { message := "hi", sessionID := none, projectName := none }).ctx =
      GoContext.background ∧
    GoContext.cancelledOnClientDisconnect
        (mkChatQueuedMessage
          { message := "hi", sessionID := none, projectName := none }).ctx = false := by
  decide

/-- Claim C4, amended: EVERY enqueued turn carries `context.Background()` —
never the request context — so client disconnection does not cancel the
context handed to the upstream HTTP call, and the worker's context outlives
the client's request. -/
theorem enqueued_turn_ctx_never_cancelled (req : ChatRequest) :
    (mkChatQueuedMessage req).ctx = GoContext.background ∧
    GoContext.cancelledOnClientDisconnect (mkChatQueuedMessage req).ctx = false ∧
    (mkChatQueuedMessage req).ctx ≠ GoContext.requestContext :=
  ⟨rfl, rfl, fun h => GoContext.noConfusion h⟩

/-! ## Claim C5 — DELETE session returns 404 for an absent file -/

/-- Claim C5 names a real divergence in the code: for an absent session file
the handler responds 400, not 404, because `validateFileOperation(..., "delete")`
runs BEFORE the dedicated existence check and already fails with
`file not found` — the 404 branch at main.go 858-862 is unreachable for an
absent file.  First conjunct: deleting the absent session `abc` of project
`proj` on an empty filesystem yields 400.  Second conjunct: a successful
delete of an existing session removes the file, drops exactly that project's
cache entry and responds 200 (this part of the claim holds). -/
theorem deleteSession_absent_file_returns_400 :
    deleteSessionHandler "/root/.claude/projects" "/" "proj" "abc" ([], []) = (400, ([], [])) ∧
    deleteSessionHandler "/p" "/" "a" "s1"
        ([("/p/a/s1.jsonl", { isDir := false, content := [104, 105] })],
         [("a", { sessions := [], timestamp := 0 }), ("b", { sessions := [], timestamp := 0 })]) =
      (200, ([], [("b", { sessions := [], timestamp := 0 })])) := by
  decide

/-! ## Claim C6 — API_KEY protects every mutating endpoint -/

/-- Claim C6 is FALSE as stated: the `DELETE .../sessions/{sessionID}` route
is registered with `corsMiddleware` only (main.go 833) — no `authMiddleware` —
so with `API_KEY = "secret"` and a mismatching `X-API-Key` header the request
still deletes the session file and answers 200 instead of 401. -/
theorem deleteSession_bypasses_auth :
    routeEndpoint Route.deleteSession "secret" "wrong"
        (deleteSessionHandler "/p" "/" "a" "s1")
        ([("/p/a/s1.jsonl", { isDir := false, content := [104, 105] })],
         [("a", { sessions := [], timestamp := 0 })]) =
      (200, ([], [])) := by
  decide

/-- Claim C6, amended: of the five mutating endpoints, delete-project,
clear-history, fork-session and chat are wrapped in `authMiddleware` and,
when `API_KEY` is set and the `X-API-Key` header mismatches, reject with 401
without invoking the handler (so no filesystem or cache mutation occurs);
delete-session is NOT wrapped and runs regardless of the header. -/
theorem auth_wrapped_routes_reject_bad_key (apiKey providedKey : String)
    (next : Handler) (st : Fs × CacheMap)
    (hset : apiKey ≠ "") (hmiss : providedKey ≠ apiKey) :
    (∀ r : Route, routeAuthWrapped r = true →
        routeEndpoint r apiKey providedKey next st = (401, st)) ∧
    routeAuthWrapped Route.deleteProject = true ∧
    routeAuthWrapped Route.clearHistory = true ∧
    routeAuthWrapped Route.forkSession = true ∧
    routeAuthWrapped Route.chat = true ∧
    routeAuthWrapped Route.deleteSession = false := by
  refine ⟨?_, rfl, rfl, rfl, rfl, rfl⟩
  intro r hr
  simp [routeEndpoint, hr, authMiddleware, hset, hmiss]

/-- Witness for `auth_wrapped_routes_reject_bad_key` at the chat route with a
concrete key pair and state. -/
theorem auth_wrapped_routes_reject_bad_key_witness :
    routeEndpoint Route.chat "secret" "wrong" (fun st => (200, st))
        (([], []) : Fs × CacheMap) = (401, (([], []) : Fs × CacheMap)) :=
  (auth_wrapped_routes_reject_bad_key "secret" "wrong" (fun st => (200, st))
    (([], []) : Fs × CacheMap) (by decide) (by decide)).1 Route.chat rfl

/-! ## Claim C7 — validatePath rejects every original containing ".." -/

/-- Claim C7 is FALSE as stated: `validatePath` tests for `".."` AFTER
`filepath.Clean`, so the path `/x/y/../z` — whose ORIGINAL form contains
`".."` — cleans to `/x/z`, passes the substring test, lies under the allowed
root `/x`, and is accepted. -/
theorem validatePath_accepts_original_dotdot :
    strContains "/x/y/../z" ".." = true ∧
    validatePath "/" "/x/y/../z" "/x" = Except.ok () := by
  decide

/-- Claim C7, amended: `validatePath` succeeds exactly when the CLEANED form
of the path does not contain the substring `".."` and the absolute form of
the cleaned path has the allowed root's absolute form as a string prefix;
an original form containing `".."` that cleans away is accepted. -/
theorem validatePath_ok_iff (cwd path basePath : String) :
    validatePath cwd path basePath = Except.ok () ↔
      strContains (filepathClean path) ".." = false ∧
      strHasPrefix (filepathAbs cwd (filepathClean path)) (filepathAbs cwd basePath) = true := by
  unfold validatePath
  cases h1 : strContains (filepathClean path) ".." with
  | true => simp [h1]
  | false =>
    cases h2 : strHasPrefix (filepathAbs cwd (filepathClean path)) (filepathAbs cwd basePath) with
    | true => simp [h1, h2]
    | false => simp [h1, h2]

/-! ## Claim C8 — sanitizeProjectName accepts names without the listed characters -/

/-- Claim C8 is FALSE as stated: the name `a.b` is non-empty, 3 bytes long,
contains none of the characters `/ \ : * ? " < > |` and does not contain the
substring `".."`, yet `sanitizeProjectName` rejects it — the Go character-set
literal `"/../\\:*?\"<>|"` passed to `strings.ContainsAny` contains the dot,
so ANY name with a dot is rejected. -/
theorem sanitizeProjectName_rejects_plain_dot :
    sanitizeProjectName "a.b" = Except.error "invalid characters in project name" ∧
    strContains "a.b" ".." = false ∧
    strContainsAny "a.b" "/\x5c:*?\"<>|" = false ∧
    "a.b".utf8ByteSize ≤ 255 ∧
    "a.b" ≠ "" := by
  decide

/-- Claim C8, amended: `sanitizeProjectName` returns the name unchanged
exactly when the name contains none of the characters
`/ . \ : * ? " < > |` (the single dot included, which subsumes the `".."`
rule), is at most 255 bytes long, and is not whitespace-only. -/
theorem sanitizeProjectName_ok_iff (name : String) :
    sanitizeProjectName name = Except.ok name ↔
      strContainsAny name "/../\x5c:*?\"<>|" = false ∧
      name.utf8ByteSize ≤ 255 ∧
      strTrimSpace name ≠ "" := by
  unfold sanitizeProjectName
  cases h1 : strContainsAny name "/../\x5c:*?\"<>|" with
  | true => simp [h1]
  | false =>
    by_cases h2 : name.utf8ByteSize > 255
    · simp only [h1, if_false]
      rw [if_pos h2]
      simp
      omega
    · by_cases h3 : strTrimSpace name = ""
      · rw [if_neg h2, if_pos h3]
        simp [h3]
      · rw [if_neg h2, if_neg h3]
        simp [h3]
        omega

/-! ## Claim C9 — fork produces a byte-identical copy -/

/-- After `os.WriteFile`, stat of the written path sees exactly the written
bytes. -/
theorem statFs_writeFs_self (fs : Fs) (p : String) (c : List Nat) :
    statFs (writeFs fs p c) p = some { isDir := false, content := c } := by
  induction fs with
  | nil => simp [writeFs, statFs]
  | cons e rest ih =>
    obtain ⟨q, n⟩ := e
    by_cases hq : q = p
    · subst hq
      simp [writeFs, statFs]
    · simp [writeFs, statFs, hq, ih]

/-- After `os.WriteFile`, stat of any other path is unchanged. -/
theorem statFs_writeFs_ne (fs : Fs) (p q : String) (c : List Nat) (hne : q ≠ p) :
    statFs (writeFs fs p c) q = statFs fs q := by
  induction fs with
  | nil => simp [writeFs, statFs, hne.symm]
  | cons e rest ih =>
    obtain ⟨r, n⟩ := e
    by_cases hr : r = p
    · subst hr
      simp [writeFs, statFs, hne.symm]
    · by_cases hrq : r = q
      · subst hrq
        simp [writeFs, statFs, hr]
      · simp [writeFs, statFs, hr, hrq, ih]

/-- Claim C9: every fork-session request that the handler answers with 200
creates the target file with byte content identical to the source file's
content at copy time, leaves the source file unchanged, and afterwards a read
of the target returns exactly the bytes a read of the source returns. -/
theorem forkSession_byte_identical_copy (projectsDir : String) (req : ForkRequest)
    (fs fs' : Fs) (cache cache' : CacheMap)
    (h : forkSessionHandler projectsDir req (fs, cache) = (200, (fs', cache'))) :
    readFileFs fs' (forkTargetPath projectsDir req) =
      readFileFs fs (forkSourcePath projectsDir req) ∧
    statFs fs' (forkSourcePath projectsDir req) = statFs fs (forkSourcePath projectsDir req) ∧
    readFileFs fs' (forkTargetPath projectsDir req) =
      readFileFs fs' (forkSourcePath projectsDir req) := by
  simp only [forkSessionHandler] at h
  split at h
  · simp at h
  · split at h
    · simp at h
    · split at h
      · simp at h
      · split at h
        · simp at h
        · split at h
          · simp at h
          · rename_i hNoFork hSome node hStat
            simp only [Prod.mk.injEq, true_and] at h
            obtain ⟨hfs, hcache⟩ := h
            subst hfs
            have hne : forkSourcePath projectsDir req ≠ forkTargetPath projectsDir req := by
              intro hEq
              rw [hEq] at hStat
              rw [hStat] at hNoFork
              simp at hNoFork
            refine ⟨?_, ?_, ?_⟩
            · rw [readFileFs, readFileFs, statFs_writeFs_self, hStat]
              simp
            · rw [statFs_writeFs_ne _ _ _ _ hne]
            · rw [readFileFs, readFileFs, statFs_writeFs_self,
                statFs_writeFs_ne _ _ _ _ hne, hStat]
              simp

/-- Witness for `forkSession_byte_identical_copy`: forking session
`...00a` to `...00b` inside project `p` under root `/r`, on a filesystem
holding only the 3-byte source file. -/
theorem forkSession_byte_identical_copy_witness :
    readFileFs
        [("/r/p/00000000-0000-0000-0000-00000000000a.jsonl",
            { isDir := false, content := [1, 2, 3] }),
         ("/r/p/00000000-0000-0000-0000-00000000000b.jsonl",
            { isDir := false, content := [1, 2, 3] })]
        (forkTargetPath "/r"
          { sourceSession := "00000000-0000-0000-0000-00000000000a",
            forkSession := "00000000-0000-0000-0000-00000000000b", projectName := "p" }) =
      readFileFs
        [("/r/p/00000000-0000-0000-0000-00000000000a.jsonl",
            { isDir := false, content := [1, 2, 3] })]
        (forkSourcePath "/r"
          { sourceSession := "00000000-0000-0000-0000-00000000000a",
            forkSession := "00000000-0000-0000-0000-00000000000b", projectName := "p" }) ∧
    statFs
        [("/r/p/00000000-0000-0000-0000-00000000000a.jsonl",
            { isDir := false, content := [1, 2, 3] }),
         ("/r/p/00000000-0000-0000-0000-00000000000b.jsonl",
            { isDir := false, content := [1, 2, 3] })]
        (forkSourcePath "/r"
          { sourceSession := "00000000-0000-0000-0000-00000000000a",
            forkSession := "00000000-0000-0000-0000-00000000000b", projectName := "p" }) =
      statFs
        [("/r/p/00000000-0000-0000-0000-00000000000a.jsonl",
            { isDir := false, content := [1, 2, 3] })]
        (forkSourcePath "/r"
          { sourceSession := "00000000-0000-0000-0000-00000000000a",
            forkSession := "00000000-0000-0000-0000-00000000000b", projectName := "p" }) ∧
    readFileFs
        [("/r/p/00000000-0000-0000-0000-00000000000a.jsonl",
            { isDir := false, content := [1, 2, 3] }),
         ("/r/p/00000000-0000-0000-0000-00000000000b.jsonl",
            { isDir := false, content := [1, 2, 3] })]
        (forkTargetPath "/r"
          { sourceSession := "00000000-0000-0000-0000-00000000000a",
            forkSession := "00000000-0000-0000-0000-00000000000b", projectName := "p" }) =
      readFileFs
        [("/r/p/00000000-0000-0000-0000-00000000000a.jsonl",
            { isDir := false, content := [1, 2, 3] }),
         ("/r/p/00000000-0000-0000-0000-00000000000b.jsonl",
            { isDir := false, content := [1, 2, 3] })]
        (forkSourcePath "/r"
          { sourceSession := "00000000-0000-0000-0000-00000000000a",
            forkSession := "00000000-0000-0000-0000-00000000000b", projectName := "p" }) :=
  forkSession_byte_identical_copy "/r"
    { sourceSession := "00000000-0000-0000-0000-00000000000a",
      forkSession := "00000000-0000-0000-0000-00000000000b", projectName := "p" }
    [("/r/p/00000000-0000-0000-0000-00000000000a.jsonl",
        { isDir := false, content := [1, 2, 3] })]
    [("/r/p/00000000-0000-0000-0000-00000000000a.jsonl",
        { isDir := false, content := [1, 2, 3] }),
     ("/r/p/00000000-0000-0000-0000-00000000000b.jsonl",
        { isDir := false, content := [1, 2, 3] })]
    [] [] (by decide)

/-! ## Claim C10 — sanitizeMessage validates but never rewrites -/

/-- Claim C10: `sanitizeMessage` either rejects a message or returns it
byte-for-byte unchanged — it never removes or rewrites a character — and a
message consisting only of whitespace is rejected even though it is within
the length limit and contains none of the forbidden substrings. -/
theorem sanitizeMessage_identity_on_accept :
    (∀ msg : String, sanitizeMessage msg = Except.ok msg ∨
        ∃ e, sanitizeMessage msg = Except.error e) ∧
    sanitizeMessage "   " = Except.error "message cannot be empty" ∧
    "   ".utf8ByteSize ≤ 10000 ∧
    dangerousSubstrings.all (fun pat => !strContains "   " pat) = true := by
  refine ⟨?_, by decide, by decide, by decide⟩
  intro msg
  unfold sanitizeMessage
  split
  · exact Or.inr ⟨_, rfl⟩
  · split
    · exact Or.inr ⟨_, rfl⟩
    · split
      · exact Or.inr ⟨_, rfl⟩
      · exact Or.inl rfl
